import Mathlib

/-
Verification development for the corpspeak streaming demo.

The repository contains:
  * functions/src/index.ts — an onCall handler `generateCorpspeak` that
    validates the prompt, and either streams producer fragments followed by
    a result event, or returns a single result event (non-streaming mode);
  * a genkit-flow variant (`corpspeakGeneratorFlow` wrapped by
    `onCallGenkit`) that validates the prompt with a zod schema
    (`z.string().min(1)`), normalizes each producer chunk
    (`chunk.text.replace` of newlines by spaces, then trim) and sends it
    only when non-empty;
  * a browser client (`handleNonStreamingRequest` / `handleStreamingRequest`)
    that issues the calls, accumulates streamed fragments and measures
    time-to-first-output (TTFB).

The model below is a shallow embedding: the external text producer is a
function from the full prompt to its run (fragments plus final text, or
fragments plus a failure), and each handler becomes a pure function from
its inputs to the ordered list of events it emits (server side), or to the
observable updates it performs (client side).
-/

namespace Corpspeak

/-- Model of the JavaScript per-character newline replacement used in the
genkit flow: a newline character becomes a space, all other characters are
kept. -/
def replaceNewlineChar (c : Char) : Char := if c = '\n' then ' ' else c

/-- Character-list model of JavaScript trim: drop whitespace from the front
and from the back. -/
def trimChars (l : List Char) : List Char :=
  ((l.dropWhile Char.isWhitespace).reverse.dropWhile Char.isWhitespace).reverse

/-- Model of JavaScript String.prototype.trim as used by the sources
(prompt validation and chunk accumulation display). -/
def jsTrim (s : String) : String := String.mk (trimChars s.data)

/-- Model of the genkit flow chunk cleanup: replace every newline by a
space, then trim (part_001 line 59). -/
def cleanChunk (s : String) : String :=
  String.mk (trimChars (s.data.map replaceNewlineChar))

/-- One run of the external text producer on a given full prompt: either a
successful stream of fragments resolving to a final text, or a failure
raised after some fragments were already yielded (possibly zero). -/
inductive ProducerRun where
  | ok (fragments : List String) (finalText : String)
  | err (fragments : List String) (message : String)
deriving DecidableEq

/-- Fragments yielded by a producer run before it resolved or failed. -/
def ProducerRun.fragments : ProducerRun → List String
  | ProducerRun.ok fr _ => fr
  | ProducerRun.err fr _ => fr

/-- A deterministic external producer: `run` models both `ai.generateStream`
(fragments plus final) and `ai.generate` (final only, fragments unused) on
a given prompt. -/
structure Producer where
  run : String → ProducerRun

/-- Wire events of one call: fragment records sent with sendChunk, the
single result payload, or the error raised by the handler
(HttpsError message and code). -/
inductive Event where
  | fragment (partialText : String)
  | result (completion : String)
  | error (message : String) (code : String)
deriving DecidableEq

/-- Terminal events are results and errors; fragments are not terminal. -/
def Event.isTerminal : Event → Bool
  | Event.fragment _ => false
  | Event.result _ => true
  | Event.error _ _ => true

/-- The `prompt` field of the inbound request data: absent, present but not
a string, or a string. -/
inductive PromptField where
  | missing
  | notString
  | str (s : String)
deriving DecidableEq

/-- An inbound call: its `prompt` field and whether the client negotiated
incremental delivery (`req.acceptsStreaming`). -/
structure CallRequest where
  prompt : PromptField
  acceptsStreaming : Bool

/-- The prompt template built from the user input, shared verbatim by both
server variants (index.ts lines 25-38, part_001 lines 24-37). -/
def createCorpspeakPrompt (userInput : String) : String :=
  "\nTransform the following straightforward text into verbose, jargon-filled \"corpspeak.\"\nThe goal is to make it sound like a high-level executive trying to be overly formal, indirect, and use as many buzzwords as possible.\nThink about synergy, leveraging, paradigm shifts, value-add, core competencies, proactive engagement, deliverables, stakeholders, strategic alignment, etc.\nAvoid being too nonsensical, but lean heavily into obfuscation and grandiosity.\nOutput ONLY the corpspeak version.\n\nCorpspeak transformation must be at least 5 sentences, ideally more, to conveny gravity of the matter.\n\n\nUser\x27s straightforward text: \"" ++ userInput ++ "\"\n\nCorpspeak Transformation:\n"

/-- Message of the HttpsError thrown on invalid input (index.ts lines 43-46). -/
def invalidPromptMessage : String :=
  "The function must be called with a non-empty \"prompt\" string."

/-- The onCall handler of index.ts (lines 40-86) as the ordered list of
events it delivers to the transport: validation first, then either the
streaming branch (sendChunk per producer fragment, result from the awaited
response, errors converted to an internal HttpsError after the fragments
already sent) or the non-streaming branch (single result or error). -/
def generateCorpspeak (producer : Producer) (req : CallRequest) : List Event :=
  match req.prompt with
  | PromptField.str userInput =>
    if jsTrim userInput = "" then
      [Event.error invalidPromptMessage "invalid-argument"]
    else
      let fullPrompt := createCorpspeakPrompt userInput
      if req.acceptsStreaming then
        match producer.run fullPrompt with
        | ProducerRun.ok frags finalText =>
            frags.map Event.fragment ++ [Event.result finalText]
        | ProducerRun.err frags msg =>
            frags.map Event.fragment ++
              [Event.error ("Streaming generation failed: " ++ msg) "internal"]
      else
        match producer.run fullPrompt with
        | ProducerRun.ok _ finalText => [Event.result finalText]
        | ProducerRun.err _ msg =>
            [Event.error ("Non-streaming generation failed: " ++ msg) "internal"]
  | _ => [Event.error invalidPromptMessage "invalid-argument"]

/-- The genkit flow body (part_001 lines 39-72) as the ordered list of
events: each producer chunk is cleaned (newlines to spaces, trimmed) and
sent iff non-empty after cleaning; the flow then resolves with the awaited
final text, or propagates the producer failure after the chunks already
sent. -/
def corpspeakGeneratorFlow (producer : Producer) (promptArg : String) : List Event :=
  let fullPrompt := createCorpspeakPrompt promptArg
  match producer.run fullPrompt with
  | ProducerRun.ok frags finalText =>
      ((frags.map cleanChunk).filter (fun c => c ≠ "")).map Event.fragment ++
        [Event.result finalText]
  | ProducerRun.err frags msg =>
      ((frags.map cleanChunk).filter (fun c => c ≠ "")).map Event.fragment ++
        [Event.error msg "internal"]

/-- Message reported when the flow input schema rejects the request.
Modelled from the spec: the `onCallGenkit` wrapper itself is not under
src/, only the flow and its zod input schema are; the spec (section 7)
says invalid input is rejected before any producer call with an
invalid-input error carrying an invalid-argument code. -/
def schemaViolationMessage : String := "INVALID_ARGUMENT"

/-- The genkit-flow server variant (part_001 lines 39-79): the zod input
schema `prompt : z.string().min(1)` accepts any string of length at least
one (no trimming) and rejects missing or non-string prompts; accepted
requests run the flow, and only streaming calls receive the flow chunks
(the wrapper behaviour — schema rejection before the flow runs, and chunk
delivery only in streaming mode — is modelled from the spec, since
`onCallGenkit` is not under src/). -/
def onCallGenkitCorpspeak (producer : Producer) (req : CallRequest) : List Event :=
  match req.prompt with
  | PromptField.str s =>
      if 1 ≤ s.length then
        let evs := corpspeakGeneratorFlow producer s
        if req.acceptsStreaming then evs else evs.filter (fun e => e.isTerminal)
      else [Event.error schemaViolationMessage "invalid-argument"]
  | _ => [Event.error schemaViolationMessage "invalid-argument"]

/-- Number of terminal events in an emitted sequence. -/
def terminalCount (evs : List Event) : Nat := evs.countP (fun e => e.isTerminal)

/-- Number of error events in an emitted sequence. -/
def errorCount (evs : List Event) : Nat :=
  evs.countP (fun e => match e with | Event.error _ _ => true | _ => false)

/-- Number of result events in an emitted sequence. -/
def resultCount (evs : List Event) : Nat :=
  evs.countP (fun e => match e with | Event.result _ => true | _ => false)

/-- Texts of the fragment events of an emitted sequence, in order. -/
def fragmentTexts (evs : List Event) : List String :=
  evs.filterMap (fun e => match e with | Event.fragment p => some p | _ => none)

/-- Completions of the result events of an emitted sequence, in order. -/
def resultCompletions (evs : List Event) : List String :=
  evs.filterMap (fun e => match e with | Event.result c => some c | _ => none)

/-- What arrives at the client over the wire for one streaming call: the
chunk records (their `partial` text and arrival time) followed by the
terminal outcome — either the resolved data payload (completion text) or a
rejection (error message), each with the time at which it is observed. -/
structure StreamEvents where
  chunks : List (String × Nat)
  outcome : Except (String × Nat) (String × Nat)

/-- One update of a TTFB timer display by updateTimerDisplay
(part_000 lines 82-96): reset to dashes, switch to measuring, or stop with
the duration computed at the given moment. -/
inductive TimerUpdate where
  | reset
  | running
  | stopped (time : Nat)
deriving DecidableEq

/-- Times at which a timer was stopped (TTFB recorded), in order. -/
def stopsOf (l : List TimerUpdate) : List Nat :=
  l.filterMap (fun u => match u with | TimerUpdate.stopped t => some t | _ => none)

/-- Local state of the streaming for-await loop (part_000 lines 150-172),
instrumented with the history of timer updates, the trajectory of the
streamedContent accumulator, and the successive values assigned to the
output element. -/
structure LoopState where
  firstChunkReceived : Bool
  streamedContent : String
  timerUpdates : List TimerUpdate
  contents : List String
  displays : List String

/-- One iteration of the streaming loop (part_000 lines 162-172): stop the
timer at the first chunk whose partial text is truthy (non-empty), append a
truthy partial to streamedContent, then write the trimmed accumulator to
the output element. -/
def streamLoopStep (st : LoopState) (chunk : String × Nat) : LoopState :=
  let st1 :=
    if st.firstChunkReceived = false ∧ chunk.1 ≠ "" then
      { st with firstChunkReceived := true,
                timerUpdates := st.timerUpdates ++ [TimerUpdate.stopped chunk.2] }
    else st
  let st2 :=
    if chunk.1 ≠ "" then
      { st1 with streamedContent := st1.streamedContent ++ chunk.1 }
    else st1
  { st2 with contents := st2.contents ++ [st2.streamedContent],
             displays := st2.displays ++ [jsTrim st2.streamedContent] }

/-- Everything the streaming request handler observably does in one call:
whether it issued the network call, whether it set its in-progress flag,
the timer updates it performed, the streamedContent trajectory, and the
successive output-element assignments. -/
structure StreamingView where
  issuedCall : Bool
  opFlagSet : Bool
  timerUpdates : List TimerUpdate
  contents : List String
  displays : List String
deriving DecidableEq

/-- Loop state at entry of the streaming loop: no truthy chunk seen yet,
empty accumulator, timer reset then started, and the two initial output
assignments (the banner at line 147, the empty string at line 160). -/
def initialLoopState : LoopState :=
  ⟨false, "", [TimerUpdate.reset, TimerUpdate.running], [],
    ["Initiating proactive synergy stream...", ""]⟩

/-- Stop of the timer at the moment the terminal event is observed, done
only when no truthy chunk already stopped it (part_000 lines 174-176 after
a clean stream end, lines 182-184 in the catch). -/
def afterLoopMark (st : LoopState) (t : Nat) : LoopState :=
  if st.firstChunkReceived then st
  else { st with timerUpdates := st.timerUpdates ++ [TimerUpdate.stopped t] }

/-- The client streaming handler (part_000 lines 140-194): a blank prompt
returns immediately; otherwise the handler sets its flag, resets and starts
its timer, clears the output, folds the chunk loop over the received
stream, stops the timer at stream end if no truthy chunk did, and finally
displays the final payload, or — when the exchange rejects — stops the
timer if still unstopped and displays the error text. -/
def handleStreamingRequest (promptText : String) (ev : StreamEvents) : StreamingView :=
  if jsTrim promptText = "" then ⟨false, false, [], [], []⟩
  else
    let st := ev.chunks.foldl streamLoopStep initialLoopState
    match ev.outcome with
    | Except.ok (completion, t) =>
        let st1 := afterLoopMark st t
        ⟨true, true, st1.timerUpdates, st1.contents,
          st1.displays ++
            [jsTrim st1.streamedContent ++ "\n(Final object: " ++ completion ++ ")"]⟩
    | Except.error (msg, t) =>
        let st1 := afterLoopMark st t
        ⟨true, true, st1.timerUpdates, st1.contents,
          st1.displays ++ ["Error: " ++ msg]⟩

/-- Everything the non-streaming request handler observably does. -/
structure NonStreamingView where
  issuedCall : Bool
  opFlagSet : Bool
  timerUpdates : List TimerUpdate
  displays : List String
deriving DecidableEq

/-- The client non-streaming handler (part_000 lines 99-138): a blank
prompt returns immediately; otherwise it sets its flag, shows the waiting
text, resets and starts its timer, and on settlement stops the timer and
displays the completion or the error text. -/
def handleNonStreamingRequest (promptText : String)
    (resp : Except (String × Nat) (String × Nat)) : NonStreamingView :=
  if jsTrim promptText = "" then ⟨false, false, [], []⟩
  else
    match resp with
    | Except.ok (completion, t) =>
        ⟨true, true, [TimerUpdate.reset, TimerUpdate.running, TimerUpdate.stopped t],
          ["Leveraging core competencies...", completion]⟩
    | Except.error (msg, t) =>
        ⟨true, true, [TimerUpdate.reset, TimerUpdate.running, TimerUpdate.stopped t],
          ["Leveraging core competencies...", "Error: " ++ msg]⟩

/-- Arrival time of the first chunk with non-empty partial text, if any. -/
def firstNonEmptyTime : List (String × Nat) → Option Nat
  | [] => none
  | (c, t) :: rest => if c = "" then firstNonEmptyTime rest else some t

/-- Time at which the terminal outcome of a streaming exchange is observed. -/
def terminalTime (ev : StreamEvents) : Nat :=
  match ev.outcome with
  | Except.ok (_, t) => t
  | Except.error (_, t) => t

/-- All observation times of a streaming exchange: chunk arrivals and the
terminal outcome. -/
def eventTimes (ev : StreamEvents) : List Nat :=
  ev.chunks.map Prod.snd ++ [terminalTime ev]

/-- Value of the streamedContent accumulator after the whole chunk loop,
starting from a given accumulator value. -/
def finalContent (acc : String) : List (String × Nat) → String
  | [] => acc
  | (c, _) :: rest => finalContent (if c = "" then acc else acc ++ c) rest

/-- Successive values of the streamedContent accumulator after each loop
iteration, starting from a given accumulator value. -/
def contentsFrom (acc : String) : List (String × Nat) → List String
  | [] => []
  | (c, _) :: rest =>
      let acc2 := if c = "" then acc else acc ++ c
      acc2 :: contentsFrom acc2 rest

/-- The module-level mutable state of the web page (part_000 lines 71-74
and the three DOM elements the handlers write): per-mode start times,
per-mode in-progress flags, per-mode output and timer displays, and the
shared button-disabled state toggled by setLoading. -/
structure AppState where
  nonStreamingStartTime : Option Nat
  streamingStartTime : Option Nat
  nonStreamingOpInProgress : Bool
  streamingOpInProgress : Bool
  outputNonStreaming : String
  outputStreaming : String
  timerNonStreaming : String
  timerStreaming : String
  buttonsDisabled : Bool

/-- Text written by updateTimerDisplay with status stopped (part_000 lines
87-95): the elapsed duration when a start time is recorded, and the reset
text when the start time value is undefined (the stopped branch then falls
through to the reset branch). -/
def timerStoppedText (startTimeValue : Option Nat) (now : Nat) : String :=
  match startTimeValue with
  | some t0 => "TTFB: " ++ toString (now - t0) ++ " ms"
  | none => "TTFB: --- ms"

/-- The non-streaming handler as atomic steps over the shared page state,
cut at its await points (part_000 lines 99-138): the blank-prompt early
return only re-enables the buttons when the other call is idle; otherwise
the handler sets its flag, waiting text and timer, records its start time,
and on settlement stops its timer, writes the completion or the error
text, and finally clears its flag, re-enabling buttons only when the
streaming call is idle. -/
def nonStreamingSteps (promptText : String) (t0 : Nat)
    (resp : Except (String × Nat) (String × Nat)) : List (AppState → AppState) :=
  if jsTrim promptText = "" then
    [fun s => if s.streamingOpInProgress then s else { s with buttonsDisabled := false }]
  else
    [fun s => { s with nonStreamingOpInProgress := true,
                       outputNonStreaming := "Leveraging core competencies...",
                       timerNonStreaming := "TTFB: --- ms" },
     fun s => { s with nonStreamingStartTime := some t0,
                       timerNonStreaming := "TTFB: Measuring..." },
     fun s =>
       match resp with
       | Except.ok (completion, t) =>
           let s1 :=
             if s.nonStreamingOpInProgress then
               { s with timerNonStreaming := timerStoppedText s.nonStreamingStartTime t }
             else s
           { s1 with outputNonStreaming := completion }
       | Except.error (msg, t) =>
           let s1 :=
             if s.nonStreamingOpInProgress then
               { s with timerNonStreaming := timerStoppedText s.nonStreamingStartTime t }
             else s
           { s1 with outputNonStreaming := "Error: " ++ msg },
     fun s =>
       let s1 := { s with nonStreamingOpInProgress := false }
       if s1.streamingOpInProgress then s1 else { s1 with buttonsDisabled := false }]

/-- Per-chunk data of the streaming loop, precomputed from the chunk list
(the loop locals firstChunkReceived and streamedContent are call-private):
whether this iteration stops the timer, and the display text it writes. -/
def chunkStepData (firstReceived : Bool) (acc : String) :
    List (String × Nat) → List (Option Nat × String)
  | [] => []
  | (c, t) :: rest =>
      let mark := if firstReceived = false ∧ c ≠ "" then some t else none
      let acc2 := if c = "" then acc else acc ++ c
      (mark, jsTrim acc2) :: chunkStepData (firstReceived || (c != "")) acc2 rest

/-- One streaming loop iteration as a step on the shared page state: stop
the streaming timer when this chunk is the first truthy one, and write the
trimmed accumulator to the streaming output element. -/
def chunkStep (d : Option Nat × String) (s : AppState) : AppState :=
  let s1 :=
    match d.1 with
    | some t => { s with timerStreaming := timerStoppedText s.streamingStartTime t }
    | none => s
  { s1 with outputStreaming := d.2 }

/-- The step observing the terminal outcome of the streaming exchange
(part_000 lines 174-186): stop the streaming timer if no truthy chunk did,
then write the final display (trimmed content plus final payload) or the
error text. -/
def termStep (ev : StreamEvents) (s : AppState) : AppState :=
  let anyTruthy := ev.chunks.any (fun c => c.1 ≠ "")
  match ev.outcome with
  | Except.ok (completion, t) =>
      let s1 :=
        if anyTruthy then s
        else { s with timerStreaming := timerStoppedText s.streamingStartTime t }
      { s1 with outputStreaming :=
          jsTrim (finalContent "" ev.chunks) ++ "\n(Final object: " ++ completion ++ ")" }
  | Except.error (msg, t) =>
      let s1 :=
        if anyTruthy then s
        else { s with timerStreaming := timerStoppedText s.streamingStartTime t }
      { s1 with outputStreaming := "Error: " ++ msg }

/-- The streaming handler as atomic steps over the shared page state, cut
at its await points (part_000 lines 140-194). -/
def streamingSteps (promptText : String) (ev : StreamEvents) (t0 : Nat) :
    List (AppState → AppState) :=
  if jsTrim promptText = "" then
    [fun s => if s.nonStreamingOpInProgress then s else { s with buttonsDisabled := false }]
  else
    [fun s => { s with streamingOpInProgress := true,
                       outputStreaming := "Initiating proactive synergy stream...",
                       timerStreaming := "TTFB: --- ms" },
     fun s => { s with streamingStartTime := some t0,
                       timerStreaming := "TTFB: Measuring..." },
     fun s => { s with outputStreaming := "" }]
    ++ (chunkStepData false "" ev.chunks).map chunkStep
    ++ [termStep ev,
        fun s =>
          let s1 := { s with streamingOpInProgress := false }
          if s1.nonStreamingOpInProgress then s1 else { s1 with buttonsDisabled := false }]

/-- Run a list of state-transformer steps in order. -/
def applyAll (l : List (AppState → AppState)) (s : AppState) : AppState :=
  l.foldl (fun a f => f a) s

/-- The fields a single call owns: its start-time marker, its in-progress
flag, its output display and its timer display. -/
structure SideView where
  startTime : Option Nat
  inProgress : Bool
  output : String
  timer : String
deriving DecidableEq

/-- Fields owned by the streaming call. -/
def streamSide (s : AppState) : SideView :=
  ⟨s.streamingStartTime, s.streamingOpInProgress, s.outputStreaming, s.timerStreaming⟩

/-- Fields owned by the non-streaming call. -/
def nonStreamSide (s : AppState) : SideView :=
  ⟨s.nonStreamingStartTime, s.nonStreamingOpInProgress, s.outputNonStreaming,
    s.timerNonStreaming⟩

/-- An arbitrary interleaving of two step sequences, preserving the order
within each. -/
inductive Interleaving {α : Type} : List α → List α → List α → Prop
  | nil : Interleaving [] [] []
  | left (a : α) {as bs l} : Interleaving as bs l → Interleaving (a :: as) bs (a :: l)
  | right (b : α) {as bs l} : Interleaving as bs l → Interleaving as (b :: bs) (b :: l)

example :
    handleStreamingRequest "hi" ⟨[("", 5), ("a", 7)], Except.ok ("done", 9)⟩ =
      ⟨true, true, [TimerUpdate.reset, TimerUpdate.running, TimerUpdate.stopped 7],
        ["", "a"],
        ["Initiating proactive synergy stream...", "", "", "a",
          "a\n(Final object: done)"]⟩ := by decide

example :
    stopsOf (handleStreamingRequest "hi"
      ⟨[("", 5)], Except.ok ("done", 9)⟩).timerUpdates = [9] := by decide

example : jsTrim "  hi  " = "hi" := by decide
example : jsTrim "   " = "" := by decide
example : cleanChunk "\nab\ncd\n" = "ab cd" := by decide
example :
    generateCorpspeak ⟨fun _ => ProducerRun.ok ["a ", "b"] "ab"⟩ ⟨PromptField.str "x", true⟩ =
      [Event.fragment "a ", Event.fragment "b", Event.result "ab"] := by decide

lemma countP_frag_append (p : Event → Bool) (hp : ∀ s, p (Event.fragment s) = false)
    (l : List String) (evs : List Event) :
    List.countP p (l.map Event.fragment ++ evs) = List.countP p evs := by
  induction l with
  | nil => simp
  | cons a t ih => simp [List.countP_cons, hp, ih]

lemma terminalCount_frag_append (l : List String) (evs : List Event) :
    terminalCount (l.map Event.fragment ++ evs) = terminalCount evs :=
  countP_frag_append _ (fun _ => rfl) l evs

lemma errorCount_frag_append (l : List String) (evs : List Event) :
    errorCount (l.map Event.fragment ++ evs) = errorCount evs :=
  countP_frag_append _ (fun _ => rfl) l evs

lemma resultCount_frag_append (l : List String) (evs : List Event) :
    resultCount (l.map Event.fragment ++ evs) = resultCount evs :=
  countP_frag_append _ (fun _ => rfl) l evs

lemma filter_isTerminal_frag_append (l : List String) (evs : List Event) :
    (l.map Event.fragment ++ evs).filter (fun e => e.isTerminal) =
      evs.filter (fun e => e.isTerminal) := by
  induction l with
  | nil => simp
  | cons a t ih => simp [List.filter_cons, Event.isTerminal, ih]

lemma fragmentTexts_frag_append (l : List String) (evs : List Event) :
    fragmentTexts (l.map Event.fragment ++ evs) = l ++ fragmentTexts evs := by
  induction l with
  | nil => simp [fragmentTexts]
  | cons a t ih =>
      simp only [fragmentTexts, List.map_cons, List.cons_append, List.filterMap_cons] at ih ⊢
      simp [ih]

lemma resultCompletions_frag_append (l : List String) (evs : List Event) :
    resultCompletions (l.map Event.fragment ++ evs) = resultCompletions evs := by
  induction l with
  | nil => simp [resultCompletions]
  | cons a t ih =>
      simp only [resultCompletions, List.map_cons, List.cons_append, List.filterMap_cons] at ih ⊢
      simp [ih]

lemma generateCorpspeak_shape (producer : Producer) (req : CallRequest) :
    ∃ (frs : List String) (last : Event), generateCorpspeak producer req = frs.map Event.fragment ++ [last] ∧
      last.isTerminal = true := by
  obtain ⟨p, mode⟩ := req
  cases p with
  | missing => exact ⟨[], Event.error invalidPromptMessage "invalid-argument", rfl, rfl⟩
  | notString => exact ⟨[], Event.error invalidPromptMessage "invalid-argument", rfl, rfl⟩
  | str s =>
      by_cases h : jsTrim s = ""
      · exact ⟨[], Event.error invalidPromptMessage "invalid-argument",
          by simp [generateCorpspeak, h], rfl⟩
      · cases mode with
        | true =>
            cases hrun : producer.run (createCorpspeakPrompt s) with
            | ok frags finalText =>
                exact ⟨frags, Event.result finalText,
                  by simp [generateCorpspeak, h, hrun], rfl⟩
            | err frags msg =>
                exact ⟨frags, Event.error ("Streaming generation failed: " ++ msg) "internal",
                  by simp [generateCorpspeak, h, hrun], rfl⟩
        | false =>
            cases hrun : producer.run (createCorpspeakPrompt s) with
            | ok frags finalText =>
                exact ⟨[], Event.result finalText,
                  by simp [generateCorpspeak, h, hrun], rfl⟩
            | err frags msg =>
                exact ⟨[], Event.error ("Non-streaming generation failed: " ++ msg) "internal",
                  by simp [generateCorpspeak, h, hrun], rfl⟩

lemma onCallGenkitCorpspeak_shape (producer : Producer) (req : CallRequest) :
    ∃ (frs : List String) (last : Event), onCallGenkitCorpspeak producer req = frs.map Event.fragment ++ [last] ∧
      last.isTerminal = true := by
  obtain ⟨p, mode⟩ := req
  cases p with
  | missing => exact ⟨[], Event.error schemaViolationMessage "invalid-argument", rfl, rfl⟩
  | notString => exact ⟨[], Event.error schemaViolationMessage "invalid-argument", rfl, rfl⟩
  | str s =>
      by_cases h : 1 ≤ s.length
      · cases hrun : producer.run (createCorpspeakPrompt s) with
        | ok frags finalText =>
            cases mode with
            | true =>
                exact ⟨(frags.map cleanChunk).filter (fun c => c ≠ ""), Event.result finalText,
                  by simp [onCallGenkitCorpspeak, corpspeakGeneratorFlow, h, hrun], rfl⟩
            | false =>
                refine ⟨[], Event.result finalText, ?_, rfl⟩
                have hstep : onCallGenkitCorpspeak producer ⟨PromptField.str s, false⟩ =
                    (corpspeakGeneratorFlow producer s).filter (fun e => e.isTerminal) := by
                  simp [onCallGenkitCorpspeak, h]
                have hflow : corpspeakGeneratorFlow producer s =
                    ((frags.map cleanChunk).filter (fun c => c ≠ "")).map Event.fragment ++
                      [Event.result finalText] := by
                  simp [corpspeakGeneratorFlow, hrun]
                rw [hstep, hflow, filter_isTerminal_frag_append]
                rfl
        | err frags msg =>
            cases mode with
            | true =>
                exact ⟨(frags.map cleanChunk).filter (fun c => c ≠ ""),
                  Event.error msg "internal",
                  by simp [onCallGenkitCorpspeak, corpspeakGeneratorFlow, h, hrun], rfl⟩
            | false =>
                refine ⟨[], Event.error msg "internal", ?_, rfl⟩
                have hstep : onCallGenkitCorpspeak producer ⟨PromptField.str s, false⟩ =
                    (corpspeakGeneratorFlow producer s).filter (fun e => e.isTerminal) := by
                  simp [onCallGenkitCorpspeak, h]
                have hflow : corpspeakGeneratorFlow producer s =
                    ((frags.map cleanChunk).filter (fun c => c ≠ "")).map Event.fragment ++
                      [Event.error msg "internal"] := by
                  simp [corpspeakGeneratorFlow, hrun]
                rw [hstep, hflow, filter_isTerminal_frag_append]
                rfl
      · exact ⟨[], Event.error schemaViolationMessage "invalid-argument",
          by simp [onCallGenkitCorpspeak, h], rfl⟩

lemma terminalCount_of_shape {evs : List Event} {frs : List String} {last : Event}
    (heq : evs = frs.map Event.fragment ++ [last]) (hterm : last.isTerminal = true) :
    terminalCount evs = 1 := by
  rw [heq, terminalCount_frag_append]
  simp [terminalCount, List.countP_cons, hterm]

/-- C1: in both incremental and non-incremental mode, and in both server
variants, every call terminates with exactly one terminal event — either
one result or one error, always last, preceded only by fragments — and
when the producer fails (before or after fragments) exactly one error
event is emitted and no result event. -/
theorem C1_exactly_one_terminal (producer : Producer) (req : CallRequest) :
    (∃ (frs : List String) (last : Event), generateCorpspeak producer req = frs.map Event.fragment ++ [last] ∧
        last.isTerminal = true) ∧
    terminalCount (generateCorpspeak producer req) = 1 ∧
    (∃ (frs : List String) (last : Event), onCallGenkitCorpspeak producer req = frs.map Event.fragment ++ [last] ∧
        last.isTerminal = true) ∧
    terminalCount (onCallGenkitCorpspeak producer req) = 1 ∧
    (∀ s frags msg, req.prompt = PromptField.str s →
      producer.run (createCorpspeakPrompt s) = ProducerRun.err frags msg →
      (jsTrim s ≠ "" →
        errorCount (generateCorpspeak producer req) = 1 ∧
        resultCount (generateCorpspeak producer req) = 0) ∧
      (1 ≤ s.length →
        errorCount (onCallGenkitCorpspeak producer req) = 1 ∧
        resultCount (onCallGenkitCorpspeak producer req) = 0)) := by
  obtain ⟨fr1, la1, heq1, hterm1⟩ := generateCorpspeak_shape producer req
  obtain ⟨fr2, la2, heq2, hterm2⟩ := onCallGenkitCorpspeak_shape producer req
  refine ⟨⟨fr1, la1, heq1, hterm1⟩, terminalCount_of_shape heq1 hterm1,
    ⟨fr2, la2, heq2, hterm2⟩, terminalCount_of_shape heq2 hterm2, ?_⟩
  obtain ⟨p, mode⟩ := req
  intro s frags msg hp hrun
  cases hp
  constructor
  · intro hs
    cases mode with
    | true =>
        simp [generateCorpspeak, hs, hrun, errorCount_frag_append, errorCount,
          resultCount_frag_append, resultCount, List.countP_cons]
    | false =>
        simp [generateCorpspeak, hs, hrun, errorCount, resultCount, List.countP_cons]
  · intro hlen
    cases mode with
    | true =>
        simp [onCallGenkitCorpspeak, corpspeakGeneratorFlow, hlen, hrun,
          errorCount_frag_append, errorCount, resultCount_frag_append, resultCount,
          List.countP_cons]
    | false =>
        have hstep : onCallGenkitCorpspeak producer ⟨PromptField.str s, false⟩ =
            (corpspeakGeneratorFlow producer s).filter (fun e => e.isTerminal) := by
          simp [onCallGenkitCorpspeak, hlen]
        have hflow : corpspeakGeneratorFlow producer s =
            ((frags.map cleanChunk).filter (fun c => c ≠ "")).map Event.fragment ++
              [Event.error msg "internal"] := by
          simp [corpspeakGeneratorFlow, hrun]
        rw [hstep, hflow, filter_isTerminal_frag_append]
        constructor <;> rfl

/-- Producer double that fails after yielding one fragment. -/
def failingProducer : Producer := ⟨fun _ => ProducerRun.err ["a"] "boom"⟩

/-- Witness for C1 at a concrete failing producer and prompt. -/
theorem C1_witness :
    errorCount (generateCorpspeak failingProducer ⟨PromptField.str "hi", true⟩) = 1 ∧
    resultCount (generateCorpspeak failingProducer ⟨PromptField.str "hi", true⟩) = 0 :=
  ((C1_exactly_one_terminal failingProducer ⟨PromptField.str "hi", true⟩).2.2.2.2
    "hi" ["a"] "boom" rfl rfl).1 (by decide)

/-- Producer double whose single fragment is a lone newline. -/
def newlineChunkProducer : Producer := ⟨fun _ => ProducerRun.ok ["\n"] "done"⟩

/-- C2 counterexample: in the genkit-flow variant a producer fragment that
is a lone newline is normalized to the empty string and silently dropped,
so one produced fragment yields zero fragment events — the claim that
each produced fragment is emitted as one fragment event fails there. -/
theorem C2_counterexample_dropped_fragment :
    (newlineChunkProducer.run (createCorpspeakPrompt "hi")).fragments.length = 1 ∧
    fragmentTexts (corpspeakGeneratorFlow newlineChunkProducer "hi") = [] := by
  constructor <;> rfl

/-- C2 amended: in the onCall variant every producer fragment is emitted
verbatim as exactly one fragment event, in producer order, and the single
result event carries the producer final text independent of the fragments;
in the genkit-flow variant the fragments are normalized (newlines to
spaces, trimmed) and emitted, in order, exactly when non-empty after
normalization, again followed by the result carrying the final text. -/
theorem C2_amended_fragment_passthrough (producer : Producer) (s : String)
    (frags : List String) (finalText : String) (hp : jsTrim s ≠ "")
    (hrun : producer.run (createCorpspeakPrompt s) = ProducerRun.ok frags finalText) :
    generateCorpspeak producer ⟨PromptField.str s, true⟩ =
      frags.map Event.fragment ++ [Event.result finalText] ∧
    corpspeakGeneratorFlow producer s =
      ((frags.map cleanChunk).filter (fun c => c ≠ "")).map Event.fragment ++
        [Event.result finalText] :=
  ⟨by simp [generateCorpspeak, hp, hrun], by simp [corpspeakGeneratorFlow, hrun]⟩

/-- Producer double implementing the three-fragment scenario of the spec. -/
def scenarioProducer : Producer :=
  ⟨fun _ => ProducerRun.ok ["Per ", "our ", "strategic review, "]
      "Per our strategic review, the infrastructure requires urgent remediation."⟩

/-- Witness for C2 at the scenario of the spec: three fragments in order,
then the full final sentence. -/
theorem C2_witness :
    generateCorpspeak scenarioProducer ⟨PromptField.str "The server is down.", true⟩ =
      ["Per ", "our ", "strategic review, "].map Event.fragment ++
        [Event.result
          "Per our strategic review, the infrastructure requires urgent remediation."] :=
  (C2_amended_fragment_passthrough scenarioProducer "The server is down."
    ["Per ", "our ", "strategic review, "]
    "Per our strategic review, the infrastructure requires urgent remediation."
    (by decide) rfl).1

/-- The onCall validation predicate (index.ts line 42): reject when the
prompt is not a string or trims to empty. -/
def onCallRejects : PromptField → Bool
  | PromptField.str s => jsTrim s = ""
  | _ => true

/-- The genkit input schema predicate (part_001 line 42,
z.string().min(1)): accept exactly strings of length at least one. -/
def genkitSchemaAccepts : PromptField → Bool
  | PromptField.str s => 1 ≤ s.length
  | _ => false

/-- Producer double yielding one clean fragment. -/
def probeProducer : Producer := ⟨fun _ => ProducerRun.ok ["x"] "y"⟩

/-- C3 counterexample: a whitespace-only prompt passes the genkit input
schema (its length is 3, at least 1), so the call is not rejected: the
producer is invoked and its fragment and result reach the transport, with
no error event. -/
theorem C3_counterexample_whitespace_prompt :
    onCallGenkitCorpspeak probeProducer ⟨PromptField.str "   ", true⟩ =
      [Event.fragment "x", Event.result "y"] ∧
    errorCount (onCallGenkitCorpspeak probeProducer ⟨PromptField.str "   ", true⟩) = 0 := by
  constructor <;> rfl

/-- C3 amended: in the onCall variant, a missing, non-string, or
empty/whitespace-only prompt is rejected in both modes with the
invalid-argument error, independently of the producer (it is never
invoked); in the genkit-flow variant, missing, non-string and empty
prompts are rejected by the input schema before the flow runs, but a
whitespace-only prompt passes the schema. -/
theorem C3_amended_validation (producer other : Producer) (p : PromptField) (mode : Bool) :
    (onCallRejects p = true →
      generateCorpspeak producer ⟨p, mode⟩ =
        [Event.error invalidPromptMessage "invalid-argument"] ∧
      generateCorpspeak producer ⟨p, mode⟩ = generateCorpspeak other ⟨p, mode⟩) ∧
    (genkitSchemaAccepts p = false →
      onCallGenkitCorpspeak producer ⟨p, mode⟩ =
        [Event.error schemaViolationMessage "invalid-argument"] ∧
      onCallGenkitCorpspeak producer ⟨p, mode⟩ = onCallGenkitCorpspeak other ⟨p, mode⟩) ∧
    genkitSchemaAccepts (PromptField.str "   ") = true := by
  refine ⟨?_, ?_, by decide⟩
  · intro h
    cases p with
    | missing => exact ⟨rfl, rfl⟩
    | notString => exact ⟨rfl, rfl⟩
    | str s =>
        have hs : jsTrim s = "" := by simpa [onCallRejects] using h
        exact ⟨by simp [generateCorpspeak, hs], by simp [generateCorpspeak, hs]⟩
  · intro h
    cases p with
    | missing => exact ⟨rfl, rfl⟩
    | notString => exact ⟨rfl, rfl⟩
    | str s =>
        have hs : ¬ 1 ≤ s.length := by simpa [genkitSchemaAccepts] using h
        exact ⟨by simp [onCallGenkitCorpspeak, hs], by simp [onCallGenkitCorpspeak, hs]⟩

/-- Witness for C3 at a whitespace prompt (onCall variant) and a missing
prompt (genkit variant). -/
theorem C3_witness :
    generateCorpspeak probeProducer ⟨PromptField.str " ", true⟩ =
      [Event.error invalidPromptMessage "invalid-argument"] ∧
    onCallGenkitCorpspeak probeProducer ⟨PromptField.missing, false⟩ =
      [Event.error schemaViolationMessage "invalid-argument"] :=
  ⟨((C3_amended_validation probeProducer failingProducer (PromptField.str " ") true).1
      (by decide)).1,
    ((C3_amended_validation probeProducer failingProducer PromptField.missing false).2.1
      (by decide)).1⟩

/-- C4: for every non-empty prompt, the streaming and non-streaming
branches produce the same result completions (both the producer final
text on success, both none on failure), and each branch depends on the
producer only through its behaviour at the one prompt both branches build
with createCorpspeakPrompt from the user input. -/
theorem C4_mode_equivalence (producer : Producer) (s : String) (hp : jsTrim s ≠ "") :
    resultCompletions (generateCorpspeak producer ⟨PromptField.str s, true⟩) =
      resultCompletions (generateCorpspeak producer ⟨PromptField.str s, false⟩) ∧
    (∀ other : Producer,
      other.run (createCorpspeakPrompt s) = producer.run (createCorpspeakPrompt s) →
      generateCorpspeak other ⟨PromptField.str s, true⟩ =
        generateCorpspeak producer ⟨PromptField.str s, true⟩ ∧
      generateCorpspeak other ⟨PromptField.str s, false⟩ =
        generateCorpspeak producer ⟨PromptField.str s, false⟩) := by
  constructor
  · cases hrun : producer.run (createCorpspeakPrompt s) with
    | ok frags finalText =>
        simp [generateCorpspeak, hp, hrun, resultCompletions_frag_append, resultCompletions]
    | err frags msg =>
        simp [generateCorpspeak, hp, hrun, resultCompletions_frag_append, resultCompletions]
  · intro other h
    constructor <;> simp [generateCorpspeak, hp, h]

/-- Witness for C4 at the scenario producer and prompt. -/
theorem C4_witness :
    resultCompletions
        (generateCorpspeak scenarioProducer ⟨PromptField.str "The server is down.", true⟩) =
      resultCompletions
        (generateCorpspeak scenarioProducer ⟨PromptField.str "The server is down.", false⟩) :=
  (C4_mode_equivalence scenarioProducer "The server is down." (by decide)).1

/-- C5: a valid non-streaming call emits no fragment events, its exchange
is a single record, and on success that record is the result event
carrying the text the producer resolved to. -/
theorem C5_nonstreaming_single_result (producer : Producer) (s : String) (hp : jsTrim s ≠ "") :
    fragmentTexts (generateCorpspeak producer ⟨PromptField.str s, false⟩) = [] ∧
    (generateCorpspeak producer ⟨PromptField.str s, false⟩).length = 1 ∧
    (∀ frags finalText,
      producer.run (createCorpspeakPrompt s) = ProducerRun.ok frags finalText →
      generateCorpspeak producer ⟨PromptField.str s, false⟩ = [Event.result finalText]) := by
  cases hrun : producer.run (createCorpspeakPrompt s) with
  | ok frags finalText =>
      refine ⟨by simp [generateCorpspeak, hp, hrun, fragmentTexts],
        by simp [generateCorpspeak, hp, hrun], ?_⟩
      intro fr fin h
      injection h with h1 h2
      subst h2
      simp [generateCorpspeak, hp, hrun]
  | err frags msg =>
      refine ⟨by simp [generateCorpspeak, hp, hrun, fragmentTexts],
        by simp [generateCorpspeak, hp, hrun], ?_⟩
      intro fr fin h
      simp at h

/-- Witness for C5 at the scenario producer and prompt. -/
theorem C5_witness :
    generateCorpspeak scenarioProducer ⟨PromptField.str "The server is down.", false⟩ =
      [Event.result
        "Per our strategic review, the infrastructure requires urgent remediation."] :=
  (C5_nonstreaming_single_result scenarioProducer "The server is down." (by decide)).2.2
    ["Per ", "our ", "strategic review, "]
    "Per our strategic review, the infrastructure requires urgent remediation." rfl

lemma trimChars_subset (l : List Char) : ∀ c ∈ trimChars l, c ∈ l := by
  intro c hc
  unfold trimChars at hc
  rw [List.mem_reverse] at hc
  have h1 := (List.dropWhile_sublist _).subset hc
  rw [List.mem_reverse] at h1
  exact (List.dropWhile_sublist _).subset h1

lemma newline_not_mem_cleanChunk (c : String) : '\n' ∉ (cleanChunk c).data := by
  intro hmem
  have h1 : '\n' ∈ c.data.map replaceNewlineChar := trimChars_subset _ _ hmem
  obtain ⟨x, hx, hrepl⟩ := List.mem_map.mp h1
  unfold replaceNewlineChar at hrepl
  by_cases hx2 : x = '\n'
  · rw [if_pos hx2] at hrepl
    exact absurd hrepl (by decide)
  · rw [if_neg hx2] at hrepl
    exact hx2 hrepl

/-- C9: in the genkit-flow variant, the fragment events are exactly the
cleaned producer fragments that are non-empty after cleaning; every
emitted fragment text is non-empty and contains no newline character, and
there are at most as many fragment events as producer fragments. -/
theorem C9_flow_fragment_normalization (producer : Producer) (promptArg : String) :
    fragmentTexts (corpspeakGeneratorFlow producer promptArg) =
      ((producer.run (createCorpspeakPrompt promptArg)).fragments.map cleanChunk).filter
        (fun c => c ≠ "") ∧
    (∀ s ∈ fragmentTexts (corpspeakGeneratorFlow producer promptArg),
      s ≠ "" ∧ '\n' ∉ s.data) ∧
    (fragmentTexts (corpspeakGeneratorFlow producer promptArg)).length ≤
      (producer.run (createCorpspeakPrompt promptArg)).fragments.length := by
  have heq : fragmentTexts (corpspeakGeneratorFlow producer promptArg) =
      ((producer.run (createCorpspeakPrompt promptArg)).fragments.map cleanChunk).filter
        (fun c => c ≠ "") := by
    cases hrun : producer.run (createCorpspeakPrompt promptArg) with
    | ok frags finalText =>
        have hflow : corpspeakGeneratorFlow producer promptArg =
            ((frags.map cleanChunk).filter (fun c => c ≠ "")).map Event.fragment ++
              [Event.result finalText] := by
          simp [corpspeakGeneratorFlow, hrun]
        rw [hflow, fragmentTexts_frag_append]
        simp [fragmentTexts, ProducerRun.fragments]
    | err frags msg =>
        have hflow : corpspeakGeneratorFlow producer promptArg =
            ((frags.map cleanChunk).filter (fun c => c ≠ "")).map Event.fragment ++
              [Event.error msg "internal"] := by
          simp [corpspeakGeneratorFlow, hrun]
        rw [hflow, fragmentTexts_frag_append]
        simp [fragmentTexts, ProducerRun.fragments]
  refine ⟨heq, ?_, ?_⟩
  · intro s hs
    rw [heq] at hs
    have hfilter := List.of_mem_filter hs
    have hmem := List.mem_of_mem_filter hs
    obtain ⟨x, hx, hclean⟩ := List.mem_map.mp hmem
    refine ⟨by simpa using hfilter, ?_⟩
    rw [← hclean]
    exact newline_not_mem_cleanChunk x
  · rw [heq]
    exact le_trans (List.length_filter_le _ _) (by simp)

/-- Producer double with one messy fragment (inner and outer newlines). -/
def messyChunkProducer : Producer := ⟨fun _ => ProducerRun.ok ["\nab\ncd\n"] "z"⟩

/-- Witness for C9: the cleaned fragment of the messy chunk is non-empty
and newline-free. -/
theorem C9_witness : "ab cd" ≠ "" ∧ '\n' ∉ "ab cd".data :=
  (C9_flow_fragment_normalization messyChunkProducer "hi").2.1 "ab cd" (by decide)

/-- Moment of first output of a streaming call as the client records it:
the arrival of the first chunk with non-empty partial text, or the
terminal event when no such chunk arrives. -/
def firstOutputTime (ev : StreamEvents) : Nat :=
  match firstNonEmptyTime ev.chunks with
  | some t => t
  | none => terminalTime ev

lemma firstNonEmptyTime_eq_none (chunks : List (String × Nat)) :
    firstNonEmptyTime chunks = none ↔ chunks.any (fun c => c.1 ≠ "") = false := by
  induction chunks with
  | nil => simp [firstNonEmptyTime]
  | cons head rest ih =>
      obtain ⟨c, t⟩ := head
      by_cases hc : c = "" <;> simp [firstNonEmptyTime, hc, ih]

lemma firstNonEmptyTime_mem {chunks : List (String × Nat)} {t : Nat}
    (h : firstNonEmptyTime chunks = some t) : t ∈ chunks.map Prod.snd := by
  induction chunks with
  | nil => simp [firstNonEmptyTime] at h
  | cons head rest ih =>
      obtain ⟨c, t2⟩ := head
      by_cases hc : c = ""
      · rw [firstNonEmptyTime, if_pos hc] at h
        simp [ih h]
      · rw [firstNonEmptyTime, if_neg hc] at h
        injection h with h2
        simp [h2]

lemma foldl_streamLoopStep_spec (chunks : List (String × Nat)) :
    ∀ st : LoopState,
      (chunks.foldl streamLoopStep st).streamedContent =
          finalContent st.streamedContent chunks ∧
      (chunks.foldl streamLoopStep st).contents =
          st.contents ++ contentsFrom st.streamedContent chunks ∧
      (chunks.foldl streamLoopStep st).firstChunkReceived =
          (st.firstChunkReceived || chunks.any (fun c => c.1 ≠ "")) ∧
      (chunks.foldl streamLoopStep st).timerUpdates =
          st.timerUpdates ++
            (if st.firstChunkReceived then []
             else
               match firstNonEmptyTime chunks with
               | some t => [TimerUpdate.stopped t]
               | none => []) := by
  induction chunks with
  | nil => intro st; simp [finalContent, contentsFrom, firstNonEmptyTime]
  | cons head rest ih =>
      intro st
      obtain ⟨c, t⟩ := head
      by_cases hc : c = ""
      · have hstep : streamLoopStep st (c, t) =
            { st with contents := st.contents ++ [st.streamedContent],
                      displays := st.displays ++ [jsTrim st.streamedContent] } := by
          simp [streamLoopStep, hc]
        rw [List.foldl_cons, hstep]
        obtain ⟨h1, h2, h3, h4⟩ := ih _
        refine ⟨?_, ?_, ?_, ?_⟩
        · rw [h1]; simp [finalContent, hc]
        · rw [h2]; simp [contentsFrom, hc]
        · rw [h3]; simp [hc]
        · rw [h4]; simp [firstNonEmptyTime, hc]
      · by_cases hf : st.firstChunkReceived = true
        · have hstep : streamLoopStep st (c, t) =
              { st with streamedContent := st.streamedContent ++ c,
                        contents := st.contents ++ [st.streamedContent ++ c],
                        displays := st.displays ++ [jsTrim (st.streamedContent ++ c)] } := by
            simp [streamLoopStep, hc, hf]
          rw [List.foldl_cons, hstep]
          obtain ⟨h1, h2, h3, h4⟩ := ih _
          refine ⟨?_, ?_, ?_, ?_⟩
          · rw [h1]; simp [finalContent, hc]
          · rw [h2]; simp [contentsFrom, hc]
          · rw [h3]; simp [hc, hf]
          · rw [h4]; simp [hf]
        · replace hf : st.firstChunkReceived = false := by
            cases hfc : st.firstChunkReceived
            · rfl
            · exact absurd hfc hf
          have hstep : streamLoopStep st (c, t) =
              { st with firstChunkReceived := true,
                        timerUpdates := st.timerUpdates ++ [TimerUpdate.stopped t],
                        streamedContent := st.streamedContent ++ c,
                        contents := st.contents ++ [st.streamedContent ++ c],
                        displays := st.displays ++ [jsTrim (st.streamedContent ++ c)] } := by
            simp [streamLoopStep, hc, hf]
          rw [List.foldl_cons, hstep]
          obtain ⟨h1, h2, h3, h4⟩ := ih _
          refine ⟨?_, ?_, ?_, ?_⟩
          · rw [h1]; simp [finalContent, hc]
          · rw [h2]; simp [contentsFrom, hc]
          · rw [h3]; simp [hc, hf]
          · rw [h4]; simp [hf, firstNonEmptyTime, hc]

lemma afterLoopMark_fold_spec (chunks : List (String × Nat)) (t : Nat) :
    (afterLoopMark (chunks.foldl streamLoopStep initialLoopState) t).timerUpdates =
      [TimerUpdate.reset, TimerUpdate.running,
        TimerUpdate.stopped
          (match firstNonEmptyTime chunks with | some tf => tf | none => t)] ∧
    (afterLoopMark (chunks.foldl streamLoopStep initialLoopState) t).contents =
      contentsFrom "" chunks := by
  obtain ⟨h1, h2, h3, h4⟩ := foldl_streamLoopStep_spec chunks initialLoopState
  unfold afterLoopMark
  rw [h3]
  cases hfn : firstNonEmptyTime chunks with
  | some tf =>
      have hany : chunks.any (fun c => c.1 ≠ "") = true := by
        cases hb : chunks.any (fun c => c.1 ≠ "") with
        | false =>
            rw [← firstNonEmptyTime_eq_none] at hb
            rw [hb] at hfn
            exact Option.noConfusion hfn
        | true => rfl
      have hcond : (initialLoopState.firstChunkReceived ||
          chunks.any (fun c => c.1 ≠ "")) = true := by
        rw [show initialLoopState.firstChunkReceived = false from rfl, Bool.false_or]
        exact hany
      rw [if_pos hcond]
      exact ⟨by rw [h4]; simp [initialLoopState, hfn], by rw [h2]; simp [initialLoopState]⟩
  | none =>
      have hany : chunks.any (fun c => c.1 ≠ "") = false :=
        (firstNonEmptyTime_eq_none chunks).mp hfn
      have hcond : (initialLoopState.firstChunkReceived ||
          chunks.any (fun c => c.1 ≠ "")) = false := by
        rw [show initialLoopState.firstChunkReceived = false from rfl, Bool.false_or]
        exact hany
      have hne : ¬ ((initialLoopState.firstChunkReceived ||
          chunks.any (fun c => c.1 ≠ "")) = true) := by
        rw [hcond]
        exact Bool.false_ne_true
      rw [if_neg hne]
      constructor
      · show (chunks.foldl streamLoopStep initialLoopState).timerUpdates ++
            [TimerUpdate.stopped t] = _
        rw [h4]
        simp [initialLoopState, hfn]
      · show (chunks.foldl streamLoopStep initialLoopState).contents = _
        rw [h2]
        simp [initialLoopState]

lemma handleStreamingRequest_eq (p : String) (ev : StreamEvents) (hp : jsTrim p ≠ "") :
    (handleStreamingRequest p ev).issuedCall = true ∧
    (handleStreamingRequest p ev).opFlagSet = true ∧
    (handleStreamingRequest p ev).contents = contentsFrom "" ev.chunks ∧
    (handleStreamingRequest p ev).timerUpdates =
      [TimerUpdate.reset, TimerUpdate.running,
        TimerUpdate.stopped (firstOutputTime ev)] := by
  obtain ⟨chunks, outcome⟩ := ev
  cases outcome with
  | ok pr =>
      obtain ⟨c0, t0⟩ := pr
      obtain ⟨ht, hc⟩ := afterLoopMark_fold_spec chunks t0
      refine ⟨?_, ?_, ?_, ?_⟩ <;>
        simp [handleStreamingRequest, hp, ht, hc, firstOutputTime, terminalTime]
  | error pr =>
      obtain ⟨m0, t0⟩ := pr
      obtain ⟨ht, hc⟩ := afterLoopMark_fold_spec chunks t0
      refine ⟨?_, ?_, ?_, ?_⟩ <;>
        simp [handleStreamingRequest, hp, ht, hc, firstOutputTime, terminalTime]

/-- C6 counterexample: a fragment event with empty partial text arrives at
time 5 and the exchange completes at time 9; the client records the
time-to-first-output at 9 (the terminal event), not at 5, because the code
only stops the timer at the first chunk whose partial text is truthy —
the claim that the duration is captured at the first fragment event fails
here even though a fragment was observed before termination. -/
theorem C6_counterexample_empty_partial :
    stopsOf (handleStreamingRequest "hi"
        ⟨[("", 5)], Except.ok ("done", 9)⟩).timerUpdates = [9] ∧
    stopsOf (handleStreamingRequest "hi"
        ⟨[("", 5)], Except.ok ("done", 9)⟩).timerUpdates ≠ [5] := by
  constructor <;> decide

/-- C6 amended: for every incremental call with a non-blank prompt the
time-to-first-output is captured exactly once (one stop of the timer), at
the first fragment event with non-empty partial text — or at the terminal
event when no such fragment is observed — and the captured moment is not
earlier than the call start, so the duration is never negative;
re-measuring cannot occur since exactly one stop is recorded. -/
theorem C6_amended_first_output_timing (p : String) (ev : StreamEvents) (t0 : Nat)
    (hp : jsTrim p ≠ "") (hmono : ∀ t ∈ eventTimes ev, t0 ≤ t) :
    stopsOf (handleStreamingRequest p ev).timerUpdates = [firstOutputTime ev] ∧
    t0 ≤ firstOutputTime ev := by
  obtain ⟨-, -, -, htimer⟩ := handleStreamingRequest_eq p ev hp
  constructor
  · rw [htimer]
    rfl
  · unfold firstOutputTime
    cases hfn : firstNonEmptyTime ev.chunks with
    | some tf =>
        refine hmono tf ?_
        unfold eventTimes
        exact List.mem_append_left _ (firstNonEmptyTime_mem hfn)
    | none =>
        refine hmono (terminalTime ev) ?_
        unfold eventTimes
        simp

/-- Witness for C6 at a one-chunk stream started at time 2. -/
theorem C6_witness :
    stopsOf (handleStreamingRequest "hi"
        ⟨[("a", 4)], Except.ok ("done", 9)⟩).timerUpdates =
      [firstOutputTime ⟨[("a", 4)], Except.ok ("done", 9)⟩] ∧
    2 ≤ firstOutputTime ⟨[("a", 4)], Except.ok ("done", 9)⟩ :=
  C6_amended_first_output_timing "hi" ⟨[("a", 4)], Except.ok ("done", 9)⟩ 2
    (by decide) (by decide)

lemma chain_contentsFrom (chunks : List (String × Nat)) :
    ∀ acc : String, List.Chain' (fun a b => ∃ tail, b = a ++ tail)
      (acc :: contentsFrom acc chunks) := by
  induction chunks with
  | nil => intro acc; simp [contentsFrom]
  | cons head rest ih =>
      intro acc
      obtain ⟨c, t⟩ := head
      by_cases hc : c = ""
      · simp only [contentsFrom, if_pos hc]
        rw [List.chain'_cons]
        exact ⟨⟨"", by simp⟩, ih acc⟩
      · simp only [contentsFrom, if_neg hc]
        rw [List.chain'_cons]
        exact ⟨⟨c, rfl⟩, ih (acc ++ c)⟩

/-- C7: for every incremental call, the streamedContent accumulator only
ever appends — each value in its trajectory extends the previous one by a
suffix, i.e. the previous accumulated content is a prefix of the next, so
no fragment retracts already-seen text. -/
theorem C7_prefix_consistent_accumulation (p : String) (ev : StreamEvents) :
    List.Chain' (fun a b => ∃ tail, b = a ++ tail)
      ("" :: (handleStreamingRequest p ev).contents) := by
  by_cases hp : jsTrim p = ""
  · simp [handleStreamingRequest, hp]
  · obtain ⟨-, -, hc, -⟩ := handleStreamingRequest_eq p ev hp
    rw [hc]
    exact chain_contentsFrom ev.chunks ""

/-- C10: on an empty or whitespace-only input, both client handlers do
nothing observable: no network call is issued, the in-progress flag is
never set, the timer display is never updated and the output display is
never written — uniformly in whatever the exchange would have returned,
so no error can surface either. -/
theorem C10_blank_prompt_noop (p : String) (hp : jsTrim p = "") :
    (∀ ev : StreamEvents, handleStreamingRequest p ev = ⟨false, false, [], [], []⟩) ∧
    (∀ resp : Except (String × Nat) (String × Nat),
      handleNonStreamingRequest p resp = ⟨false, false, [], []⟩) := by
  constructor
  · intro ev
    simp [handleStreamingRequest, hp]
  · intro resp
    simp [handleNonStreamingRequest, hp]

/-- Witness for C10 at a whitespace-only and an empty prompt. -/
theorem C10_witness :
    handleStreamingRequest "   " ⟨[("a", 1)], Except.ok ("done", 2)⟩ =
      ⟨false, false, [], [], []⟩ ∧
    handleNonStreamingRequest "" (Except.error ("boom", 3)) = ⟨false, false, [], []⟩ :=
  ⟨(C10_blank_prompt_noop "   " (by decide)).1 _,
    (C10_blank_prompt_noop "" (by decide)).2 _⟩

lemma applyAll_cons (f : AppState → AppState) (l : List (AppState → AppState))
    (s : AppState) : applyAll (f :: l) s = applyAll l (f s) := rfl

lemma Interleaving.swap {α : Type} {as bs l : List α} (h : Interleaving as bs l) :
    Interleaving bs as l := by
  induction h with
  | nil => exact Interleaving.nil
  | left a hrec ih => exact Interleaving.right a ih
  | right b hrec ih => exact Interleaving.left b ih

lemma interleaving_append {α : Type} (as bs : List α) : Interleaving as bs (as ++ bs) := by
  induction as with
  | nil =>
      show Interleaving [] bs bs
      induction bs with
      | nil => exact Interleaving.nil
      | cons b rest ih => exact Interleaving.right b ih
  | cons a rest ih => exact Interleaving.left a ih

lemma interleaving_proj {β : Type} (proj : AppState → β)
    {as bs l : List (AppState → AppState)} (h : Interleaving as bs l) :
    (∀ f ∈ as, ∀ s, proj (f s) = proj s) →
    (∀ f ∈ bs, ∀ s t, proj s = proj t → proj (f s) = proj (f t)) →
    ∀ s t, proj s = proj t → proj (applyAll l s) = proj (applyAll bs t) := by
  induction h with
  | nil =>
      intro _ _ s t hst
      exact hst
  | left a hrec ih =>
      intro hA hB s t hst
      rw [applyAll_cons]
      exact ih (fun f hf => hA f (List.mem_cons_of_mem _ hf)) hB (a s) t
        ((hA a (List.mem_cons_self _ _) s).trans hst)
  | right b hrec ih =>
      intro hA hB s t hst
      rw [applyAll_cons, applyAll_cons]
      exact ih hA (fun f hf => hB f (List.mem_cons_of_mem _ hf)) (b s) (b t)
        (hB b (List.mem_cons_self _ _) s t hst)

lemma nonStreamingSteps_frame (p : String) (t0 : Nat)
    (resp : Except (String × Nat) (String × Nat)) :
    ∀ f ∈ nonStreamingSteps p t0 resp, ∀ s, streamSide (f s) = streamSide s := by
  intro f hf s
  unfold nonStreamingSteps at hf
  by_cases hp : jsTrim p = ""
  · rw [if_pos hp] at hf
    simp only [List.mem_singleton] at hf
    subst hf
    by_cases hs : s.streamingOpInProgress = true <;> simp [hs, streamSide]
  · rw [if_neg hp] at hf
    simp only [List.mem_cons, List.not_mem_nil, or_false] at hf
    rcases hf with hf | hf | hf | hf <;> subst hf
    · rfl
    · rfl
    · cases resp with
      | ok pr =>
          obtain ⟨c0, t1⟩ := pr
          by_cases hip : s.nonStreamingOpInProgress = true <;> simp [hip, streamSide]
      | error pr =>
          obtain ⟨m0, t1⟩ := pr
          by_cases hip : s.nonStreamingOpInProgress = true <;> simp [hip, streamSide]
    · by_cases hs : s.streamingOpInProgress = true <;> simp [hs, streamSide]

lemma streamingSteps_frame (p : String) (ev : StreamEvents) (t0 : Nat) :
    ∀ f ∈ streamingSteps p ev t0, ∀ s, nonStreamSide (f s) = nonStreamSide s := by
  intro f hf s
  unfold streamingSteps at hf
  by_cases hp : jsTrim p = ""
  · rw [if_pos hp] at hf
    simp only [List.mem_singleton] at hf
    subst hf
    by_cases hs : s.nonStreamingOpInProgress = true <;> simp [hs, nonStreamSide]
  · rw [if_neg hp] at hf
    simp only [List.mem_append, List.mem_cons, List.not_mem_nil, or_false,
      List.mem_map] at hf
    rcases hf with ((hf | hf | hf) | ⟨d, hd, hf⟩) | hf | hf
    · subst hf; rfl
    · subst hf; rfl
    · subst hf; rfl
    · subst hf
      obtain ⟨mark, disp⟩ := d
      cases mark <;> simp [chunkStep, nonStreamSide]
    · subst hf
      obtain ⟨chunks, outcome⟩ := ev
      cases outcome with
      | ok pr =>
          obtain ⟨c0, t1⟩ := pr
          simp only [termStep]
          split <;> rfl
      | error pr =>
          obtain ⟨m0, t1⟩ := pr
          simp only [termStep]
          split <;> rfl
    · subst hf
      by_cases hs : s.nonStreamingOpInProgress = true <;> simp [hs, nonStreamSide]

lemma streamingSteps_congr (p : String) (ev : StreamEvents) (t0 : Nat) :
    ∀ f ∈ streamingSteps p ev t0, ∀ s t, streamSide s = streamSide t →
      streamSide (f s) = streamSide (f t) := by
  intro f hf s t hst
  have h1 : s.streamingStartTime = t.streamingStartTime := congrArg SideView.startTime hst
  have h2 : s.streamingOpInProgress = t.streamingOpInProgress :=
    congrArg SideView.inProgress hst
  have h3 : s.outputStreaming = t.outputStreaming := congrArg SideView.output hst
  have h4 : s.timerStreaming = t.timerStreaming := congrArg SideView.timer hst
  unfold streamingSteps at hf
  by_cases hp : jsTrim p = ""
  · rw [if_pos hp] at hf
    simp only [List.mem_singleton] at hf
    subst hf
    have hall : ∀ u : AppState,
        streamSide (if u.nonStreamingOpInProgress then u
          else { u with buttonsDisabled := false }) = streamSide u := by
      intro u
      by_cases hu : u.nonStreamingOpInProgress = true <;> simp [hu, streamSide]
    rw [hall s, hall t]
    exact hst
  · rw [if_neg hp] at hf
    simp only [List.mem_append, List.mem_cons, List.not_mem_nil, or_false,
      List.mem_map] at hf
    rcases hf with ((hf | hf | hf) | ⟨d, hd, hf⟩) | hf | hf
    · subst hf; simp [streamSide, h1]
    · subst hf; simp [streamSide, h2, h3]
    · subst hf; simp [streamSide, h1, h2, h4]
    · subst hf
      obtain ⟨mark, disp⟩ := d
      cases mark <;> simp [chunkStep, streamSide, h1, h2, h4]
    · subst hf
      obtain ⟨chunks, outcome⟩ := ev
      cases outcome with
      | ok pr =>
          obtain ⟨c0, t1⟩ := pr
          simp only [termStep]
          split <;> simp [streamSide, h1, h2, h4]
      | error pr =>
          obtain ⟨m0, t1⟩ := pr
          simp only [termStep]
          split <;> simp [streamSide, h1, h2, h4]
    · subst hf
      by_cases hu : s.nonStreamingOpInProgress = true <;>
        by_cases hv : t.nonStreamingOpInProgress = true <;>
        simp only [hu, hv, if_true, if_false] <;>
        simp [streamSide, h1, h3, h4]

lemma nonStreamingSteps_congr (p : String) (t0 : Nat)
    (resp : Except (String × Nat) (String × Nat)) :
    ∀ f ∈ nonStreamingSteps p t0 resp, ∀ s t, nonStreamSide s = nonStreamSide t →
      nonStreamSide (f s) = nonStreamSide (f t) := by
  intro f hf s t hst
  have h1 : s.nonStreamingStartTime = t.nonStreamingStartTime :=
    congrArg SideView.startTime hst
  have h2 : s.nonStreamingOpInProgress = t.nonStreamingOpInProgress :=
    congrArg SideView.inProgress hst
  have h3 : s.outputNonStreaming = t.outputNonStreaming := congrArg SideView.output hst
  have h4 : s.timerNonStreaming = t.timerNonStreaming := congrArg SideView.timer hst
  unfold nonStreamingSteps at hf
  by_cases hp : jsTrim p = ""
  · rw [if_pos hp] at hf
    simp only [List.mem_singleton] at hf
    subst hf
    have hall : ∀ u : AppState,
        nonStreamSide (if u.streamingOpInProgress then u
          else { u with buttonsDisabled := false }) = nonStreamSide u := by
      intro u
      by_cases hu : u.streamingOpInProgress = true <;> simp [hu, nonStreamSide]
    rw [hall s, hall t]
    exact hst
  · rw [if_neg hp] at hf
    simp only [List.mem_cons, List.not_mem_nil, or_false] at hf
    rcases hf with hf | hf | hf | hf <;> subst hf
    · simp [nonStreamSide, h1]
    · simp [nonStreamSide, h2, h3]
    · cases resp with
      | ok pr =>
          obtain ⟨c0, t1⟩ := pr
          by_cases hu : s.nonStreamingOpInProgress = true
          · have hv : t.nonStreamingOpInProgress = true := h2 ▸ hu
            simp [hu, hv, nonStreamSide, h1, h2]
          · have hv : ¬ t.nonStreamingOpInProgress = true :=
              fun hcontra => hu (h2.symm ▸ hcontra)
            simp [hu, hv, nonStreamSide, h1, h2, h4]
      | error pr =>
          obtain ⟨m0, t1⟩ := pr
          by_cases hu : s.nonStreamingOpInProgress = true
          · have hv : t.nonStreamingOpInProgress = true := h2 ▸ hu
            simp [hu, hv, nonStreamSide, h1, h2]
          · have hv : ¬ t.nonStreamingOpInProgress = true :=
              fun hcontra => hu (h2.symm ▸ hcontra)
            simp [hu, hv, nonStreamSide, h1, h2, h4]
    · by_cases hu : s.streamingOpInProgress = true <;>
        by_cases hv : t.streamingOpInProgress = true <;>
        simp only [hu, hv, if_true, if_false] <;>
        simp [nonStreamSide, h1, h3, h4]

lemma nonStreamingSteps_output (p : String) (t0 : Nat) (c : String) (t : Nat)
    (hp : jsTrim p ≠ "") (s0 : AppState) :
    (applyAll (nonStreamingSteps p t0 (Except.ok (c, t))) s0).outputNonStreaming = c := by
  unfold nonStreamingSteps applyAll
  rw [if_neg hp]
  simp only [List.foldl_cons, List.foldl_nil]
  split <;> first | rfl | (split <;> rfl)

lemma streamingSteps_output (p : String) (ev : StreamEvents) (t0 : Nat) (c : String)
    (t : Nat) (hp : jsTrim p ≠ "") (hout : ev.outcome = Except.ok (c, t)) (s0 : AppState) :
    (applyAll (streamingSteps p ev t0) s0).outputStreaming =
      jsTrim (finalContent "" ev.chunks) ++ "\n(Final object: " ++ c ++ ")" := by
  obtain ⟨chunks, outcome⟩ := ev
  simp only at hout
  subst hout
  unfold streamingSteps applyAll
  rw [if_neg hp]
  rw [List.foldl_append, List.foldl_append]
  simp only [List.foldl_cons, List.foldl_nil]
  simp only [termStep]
  split <;> first | rfl | (split <;> rfl)

/-- C8: any interleaving of a non-streaming call and a streaming call
leaves each call's owned state — start-time marker, in-progress flag,
output display and timer display — exactly as if that call had run alone,
because each call's steps neither read nor write the fields the other call
owns (only the shared button state is touched by both); in particular each
call's output ends up with its own completion. -/
theorem C8_concurrent_independence (p₁ p₂ : String) (t₁ t₂ : Nat)
    (resp : Except (String × Nat) (String × Nat)) (ev : StreamEvents)
    (L : List (AppState → AppState))
    (h : Interleaving (nonStreamingSteps p₁ t₁ resp) (streamingSteps p₂ ev t₂) L)
    (s0 : AppState) :
    streamSide (applyAll L s0) = streamSide (applyAll (streamingSteps p₂ ev t₂) s0) ∧
    nonStreamSide (applyAll L s0) =
      nonStreamSide (applyAll (nonStreamingSteps p₁ t₁ resp) s0) ∧
    (jsTrim p₁ ≠ "" → ∀ c t, resp = Except.ok (c, t) →
      (applyAll L s0).outputNonStreaming = c) ∧
    (jsTrim p₂ ≠ "" → ∀ c t, ev.outcome = Except.ok (c, t) →
      (applyAll L s0).outputStreaming =
        jsTrim (finalContent "" ev.chunks) ++ "\n(Final object: " ++ c ++ ")") := by
  have hstream : streamSide (applyAll L s0) =
      streamSide (applyAll (streamingSteps p₂ ev t₂) s0) :=
    interleaving_proj streamSide h (nonStreamingSteps_frame p₁ t₁ resp)
      (streamingSteps_congr p₂ ev t₂) s0 s0 rfl
  have hnon : nonStreamSide (applyAll L s0) =
      nonStreamSide (applyAll (nonStreamingSteps p₁ t₁ resp) s0) :=
    interleaving_proj nonStreamSide h.swap (streamingSteps_frame p₂ ev t₂)
      (nonStreamingSteps_congr p₁ t₁ resp) s0 s0 rfl
  refine ⟨hstream, hnon, ?_, ?_⟩
  · intro hp c t hresp
    subst hresp
    have := congrArg SideView.output hnon
    simp only [nonStreamSide] at this
    rw [this]
    exact nonStreamingSteps_output p₁ t₁ c t hp s0
  · intro hp c t hout
    have := congrArg SideView.output hstream
    simp only [streamSide] at this
    rw [this]
    exact streamingSteps_output p₂ ev t₂ c t hp hout s0

/-- Blank initial page state. -/
def initState : AppState := ⟨none, none, false, false, "", "", "", "", false⟩

/-- A concrete streaming exchange for the witness. -/
def evW : StreamEvents := ⟨[("y", 4)], Except.ok ("Y", 6)⟩

/-- Witness for C8 at one concrete interleaving (the sequential one) of a
non-streaming call and a streaming call. -/
theorem C8_witness :
    streamSide (applyAll (nonStreamingSteps "a" 0 (Except.ok ("X", 3)) ++
        streamingSteps "b" evW 1) initState) =
      streamSide (applyAll (streamingSteps "b" evW 1) initState) ∧
    nonStreamSide (applyAll (nonStreamingSteps "a" 0 (Except.ok ("X", 3)) ++
        streamingSteps "b" evW 1) initState) =
      nonStreamSide (applyAll (nonStreamingSteps "a" 0 (Except.ok ("X", 3))) initState) :=
  ⟨(C8_concurrent_independence "a" "b" 0 1 (Except.ok ("X", 3)) evW _
      (interleaving_append _ _) initState).1,
    (C8_concurrent_independence "a" "b" 0 1 (Except.ok ("X", 3)) evW _
      (interleaving_append _ _) initState).2.1⟩

end Corpspeak
